import Mathlib

/-!
Shallow embedding of the windowed synchronization and incentive-scoring core of
the templar repository (src/neurons/validator.py and src/neurons/miner.py).

Real numbers of the Python code (torch float tensors, Python floats) are
modelled as exact rationals; the external torch collaborators (tensor norm and
cosine similarity, the model forward/backward) are abstracted as function
parameters, exactly as the specification treats them (external model
collaborator).  Score/weight vectors (torch.zeros(256)) are lists of rationals.
Side effects on slice storage are recorded as an explicit trace of operations,
each carrying the seed value the Python call sites pass.
-/

namespace Templar

/-- A seed value as passed around by the Python code: call sites pass either the
bare integer window (`seed = window`) or the block-hash string produced by
`window_to_seed` (`str(self.subtensor.get_block_hash(...))`).  An int and a str
are never the same value in Python, which the two constructors reflect. -/
inductive SeedVal
  | ofWindow : Int → SeedVal
  | ofHash : String → SeedVal
deriving DecidableEq

/-- The hyperparameters the embedded fragment reads (`self.hparams`). -/
structure Hparams where
  windowLength : Nat
  validator_moving_alpha : Rat
  max_history : Int

/-- `Miner.block_to_window` / `Validator.block_to_window`:
`int(block / self.hparams.window_length)`.  Block heights are non-negative and
`int(...)` truncates the exact quotient toward zero, which on non-negative
operands is floor division. -/
def blockToWindow (h : Hparams) (block : Nat) : Nat :=
  block / h.windowLength

/-- `Miner.window_to_seed` / `Validator.window_to_seed`:
`str(self.subtensor.get_block_hash(window * self.hparams.window_length))`,
with the chain's `get_block_hash` abstracted as `getBlockHash`. -/
def windowToSeed (h : Hparams) (getBlockHash : Int → String) (window : Int) : SeedVal :=
  SeedVal.ofHash (getBlockHash (window * (h.windowLength : Int)))

/-- The `1e-8` guard added to the tensor norm in the validator's score loop. -/
def epsilon : Rat := 1 / 100000000

/-- One named parameter of the model as seen by the validator's score loop:
whether `param_i.grad is None`, and the gradient / peer-slice / own-parameter
values at the offsets selected for the window (`[idxs_i]`). -/
structure TensorEval where
  hasGrad : Bool
  grad : List Rat
  sliceData : List Rat
  theta : List Rat
deriving DecidableEq

/-- The validator's score accumulation (validator.py lines 308-318):
for every parameter with a gradient,
`score += (theta.norm() + 1e-8) * cosine_similarity(theta - slice, grad)`.
`norm` and `cossim` are the torch collaborators, abstracted. -/
def cosineScore (norm : List Rat → Rat) (cossim : List Rat → List Rat → Rat)
    (tensors : List TensorEval) : Rat :=
  tensors.foldl
    (fun score t =>
      if t.hasGrad then
        score + (norm t.theta + epsilon) *
          cossim (List.zipWith (fun a b => a - b) t.theta t.sliceData) t.grad
      else score)
    0

/-- `self.weights[negative_weights] = 0.0` applied entrywise. -/
def clipNeg (w : Rat) : Rat := if w < 0 then 0 else w

/-- The validator's weight recomputation (validator.py lines 326-350):
if the total score is (exactly) zero, zero every weight; otherwise divide by
the total, and if any entry came out negative, zero the negative entries and
renormalize by the remaining total unless that total is zero. -/
def computeWeights (scores : List Rat) : List Rat :=
  let totalScore := scores.sum
  if totalScore = 0 then
    scores.map (fun _ => 0)
  else
    let weights := scores.map (fun s => s / totalScore)
    if weights.any (fun w => decide (w < 0)) then
      let clipped := weights.map clipNeg
      let positiveTotal := clipped.sum
      if positiveTotal = 0 then clipped
      else clipped.map (fun w => w / positiveTotal)
    else weights

/-- What one iteration of the batch loop observes: whether
`random.random() < self.sample_rate`, and the value of `self.current_window`
(updated concurrently by the block listener) right after the backward pass. -/
structure BatchObs where
  randBelowRate : Bool
  currentWindowObserved : Int
deriving DecidableEq

/-- Counters of the gradient-accumulation loop. -/
structure TrainOutcome where
  totalSteps : Nat
  fullSteps : Nat
  exhausted : Bool
deriving DecidableEq

/-- The fixed eval-window lag of the validator (`offset = 2`). -/
def validatorOffset : Int := 2

/-- One iteration of the validator's gradient accumulation loop
(validator.py lines 281-293): always count the step; when sampled and not yet
exhausted, process the batch and mark the round exhausted if
`self.current_window - offset != window`. -/
def validatorBatchStep (window : Int) (acc : TrainOutcome) (ob : BatchObs) : TrainOutcome :=
  if ob.randBelowRate && !acc.exhausted then
    { totalSteps := acc.totalSteps + 1
      fullSteps := acc.fullSteps + 1
      exhausted := acc.exhausted || decide (ob.currentWindowObserved - validatorOffset ≠ window) }
  else
    { acc with totalSteps := acc.totalSteps + 1 }

/-- The validator's gradient accumulation loop over the eval dataset. -/
def validatorAccumulate (window : Int) (batches : List BatchObs) : TrainOutcome :=
  batches.foldl (validatorBatchStep window) ⟨0, 0, false⟩

/-- One iteration of the miner's training loop (miner.py lines 401-414); the
exhaustion check is `window != self.current_window and not self.config.baseline`. -/
def minerBatchStep (window : Int) (baseline : Bool) (acc : TrainOutcome) (ob : BatchObs) :
    TrainOutcome :=
  if ob.randBelowRate && !acc.exhausted then
    { totalSteps := acc.totalSteps + 1
      fullSteps := acc.fullSteps + 1
      exhausted := acc.exhausted ||
        (decide (window ≠ ob.currentWindowObserved) && !baseline) }
  else
    { acc with totalSteps := acc.totalSteps + 1 }

/-- The miner's training loop over the dataset. -/
def minerAccumulate (window : Int) (baseline : Bool) (batches : List BatchObs) : TrainOutcome :=
  batches.foldl (minerBatchStep window baseline) ⟨0, 0, false⟩

/-- The adaptive sample-rate update performed at the end of each round
(miner.py lines 429-432, validator.py lines 303-304):
`max(0.0001, rate * 0.95)` when exhausted, else `min(1, rate * 1.05)`. -/
def updateSampleRate (exhausted : Bool) (rate : Rat) : Rat :=
  if exhausted then max (1 / 10000) (rate * (95 / 100))
  else min 1 (rate * (105 / 100))

/-- One storage / scoring side effect of a round, with the seed value the call
site passes (`download_slices_for_buckets_and_windows`, `apply_slices_to_model`,
`get_indices_for_window`, `upload_slice_for_window`,
`delete_files_before_window` local / `delete_files_from_bucket_before_window`
remote). -/
inductive Op
  | download (key : String) (window : Int)
  | applySlices (key : String) (window : Int) (seed : SeedVal)
  | getIndices (window : Int) (seed : SeedVal)
  | gradAccum
  | scoreRecorded (uid : Nat)
  | recomputeWeights
  | upload (key : String) (window : Int) (seed : SeedVal) (globalStep : Nat)
  | prune (remote : Bool) (key : String) (windowMax : Int)
deriving DecidableEq

/-- An operation carries the bare window index as its seed (rather than a
block-hash seed) whenever it carries a seed at all. -/
def seedMatches : Op → Bool
  | Op.applySlices _ w s => decide (s = SeedVal.ofWindow w)
  | Op.getIndices w s => decide (s = SeedVal.ofWindow w)
  | Op.upload _ w s _ => decide (s = SeedVal.ofWindow w)
  | _ => true

/-- The validator's mutable per-round numeric state: `self.global_step`,
`self.step_scores`, `self.scores`, `self.weights` (each `torch.zeros(256)` at
startup) and `self.sample_rate`. -/
structure ValidatorState where
  globalStep : Nat
  stepScores : List Rat
  scores : List Rat
  weights : List Rat
  sampleRate : Rat
deriving DecidableEq

/-- The external observations one validator round makes: the window clock at
round start, the hotkeys of the retrieved delta slices for the eval window,
the index `random.choice` picks, the metagraph hotkey table, the per-parameter
tensor data of the chosen slice, and the batch loop's observations. -/
structure ValidatorRoundInput where
  currentWindowAtStart : Int
  evalHotkeys : List String
  choiceIdx : Nat
  hotkeys : List String
  tensors : List TensorEval
  batches : List BatchObs

/-- The eval window of a round: `window = self.current_window - offset`. -/
def evalWindow (inp : ValidatorRoundInput) : Int :=
  inp.currentWindowAtStart - validatorOffset

/-- `eval_slice_info = random.choice(eval_slices[window])` followed by
`eval_uid = self.metagraph.hotkeys.index(eval_slice_info.hotkey)`; `none` when
the hotkey is absent (the `ValueError` branch). -/
def resolveEvalUid (inp : ValidatorRoundInput) : Option Nat :=
  (inp.evalHotkeys[inp.choiceIdx]?).bind
    (fun hk => inp.hotkeys.findIdx? (fun x => x == hk))

/-- Result of one validator round: the new state and the trace of slice-store
and scoring operations performed. -/
structure ValidatorRoundResult where
  state : ValidatorState
  ops : List Op

/-- The ema update of validator.py line 324:
`(1 - alpha) * score + alpha * self.scores[eval_uid]`. -/
def emaUpdate (alpha score prev : Rat) : Rat :=
  (1 - alpha) * score + alpha * prev

/-- One iteration of `Validator.run`'s main loop (validator.py lines 196-427),
excluding wall-clock logging, wandb and the periodic chain commit.  The round
increments `global_step`, downloads state and delta slices for the eval window,
and returns early (waiting for the next window) when no delta slice was
retrieved, or - after applying state and computing indices - when the chosen
slice's hotkey is not in the metagraph.  Otherwise it runs the sampled batch
loop, updates the sample rate, computes the score of the chosen slice, writes
`step_scores[uid]` and the ema `scores[uid]`, recomputes the full weight
vector, applies the deltas and prunes history.  Every `seed = ...` argument of
the Python call sites is the bare window index, which the trace records. -/
def validatorRound (h : Hparams) (norm : List Rat → Rat)
    (cossim : List Rat → List Rat → Rat)
    (st : ValidatorState) (inp : ValidatorRoundInput) : ValidatorRoundResult :=
  if inp.evalHotkeys.length = 0 then
    { state := { st with globalStep := st.globalStep + 1 }
      ops := [Op.download "state" (evalWindow inp), Op.download "delta" (evalWindow inp)] }
  else
    match resolveEvalUid inp with
    | none =>
      { state := { st with globalStep := st.globalStep + 1 }
        ops := [Op.download "state" (evalWindow inp), Op.download "delta" (evalWindow inp),
                Op.applySlices "state" (evalWindow inp) (SeedVal.ofWindow (evalWindow inp)),
                Op.getIndices (evalWindow inp) (SeedVal.ofWindow (evalWindow inp))] }
    | some evalUid =>
      { state :=
          { globalStep := st.globalStep + 1
            stepScores := st.stepScores.set evalUid (cosineScore norm cossim inp.tensors)
            scores := st.scores.set evalUid
              (emaUpdate h.validator_moving_alpha (cosineScore norm cossim inp.tensors)
                (st.scores.getD evalUid 0))
            weights := computeWeights (st.scores.set evalUid
              (emaUpdate h.validator_moving_alpha (cosineScore norm cossim inp.tensors)
                (st.scores.getD evalUid 0)))
            sampleRate := updateSampleRate
              (validatorAccumulate (evalWindow inp) inp.batches).exhausted st.sampleRate }
        ops := [Op.download "state" (evalWindow inp), Op.download "delta" (evalWindow inp),
                Op.applySlices "state" (evalWindow inp) (SeedVal.ofWindow (evalWindow inp)),
                Op.getIndices (evalWindow inp) (SeedVal.ofWindow (evalWindow inp)),
                Op.gradAccum,
                Op.scoreRecorded evalUid,
                Op.recomputeWeights,
                Op.applySlices "delta" (evalWindow inp) (SeedVal.ofWindow (evalWindow inp)),
                Op.prune false "state" (evalWindow inp - h.max_history),
                Op.prune false "delta" (evalWindow inp - h.max_history),
                Op.prune true "state" (evalWindow inp - h.max_history),
                Op.prune true "delta" (evalWindow inp - h.max_history)] }

/-- The miner's mutable numeric state: `self.global_step` and `self.sample_rate`. -/
structure MinerState where
  globalStep : Nat
  sampleRate : Rat
deriving DecidableEq

/-- External observations of one miner round: the window clock at round start
(`window = self.current_window`), the config flags, the `max_global_step`
values recovered by the two `apply_slices_to_model` calls (`None` when no slice
carried one), and the training-loop observations. -/
structure MinerRoundInput where
  currentWindowAtStart : Int
  baseline : Bool
  anyValidBuckets : Bool
  stateApplyMaxStep : Option Nat
  deltaApplyMaxStep : Option Nat
  batches : List BatchObs

/-- Result of one miner round. -/
structure MinerRoundResult where
  state : MinerState
  ops : List Op

/-- `if max_global_step is not None: self.global_step = max(self.global_step,
max_global_step)` (miner.py lines 302-304, 372-374, 461-463). -/
def mergeGlobalStep (g : Nat) (m : Option Nat) : Nat :=
  match m with
  | some maxStep => max g maxStep
  | none => g

/-- One step of the miner's optional sync-state prologue (miner.py lines
293-305): apply one history window's slices and merge the recovered global
step. -/
def minerSyncStateStep (st : MinerState) (maxStep : Option Nat) : MinerState :=
  { st with globalStep := mergeGlobalStep st.globalStep maxStep }

/-- One iteration of `Miner.run`'s main loop (miner.py lines 310-503),
excluding checkpointing, wall-clock logging and wandb.  The round increments
`global_step`; a non-baseline round with no valid buckets waits for the next
window and continues.  Otherwise (non-baseline) it downloads state slices for
the window and delta slices for the previous window, applies the state
(merging the recovered global step), trains with the adaptive sampler, updates
the sample rate, uploads the delta for this window, applies the previous
window's deltas (merging again), uploads the state for the next window and
prunes history.  A baseline round only trains.  Every `seed = ...` argument is
the corresponding bare window index. -/
def minerRound (h : Hparams) (st : MinerState) (inp : MinerRoundInput) : MinerRoundResult :=
  if !inp.baseline && !inp.anyValidBuckets then
    { state := { st with globalStep := st.globalStep + 1 }, ops := [] }
  else if inp.baseline then
    { state :=
        { globalStep := st.globalStep + 1
          sampleRate := updateSampleRate
            (minerAccumulate inp.currentWindowAtStart true inp.batches).exhausted
            st.sampleRate }
      ops := [] }
  else
    let g1 := mergeGlobalStep (st.globalStep + 1) inp.stateApplyMaxStep
    let g2 := mergeGlobalStep g1 inp.deltaApplyMaxStep
    { state :=
        { globalStep := g2
          sampleRate := updateSampleRate
            (minerAccumulate inp.currentWindowAtStart false inp.batches).exhausted
            st.sampleRate }
      ops := [Op.download "state" inp.currentWindowAtStart,
              Op.download "delta" (inp.currentWindowAtStart - 1),
              Op.applySlices "state" inp.currentWindowAtStart
                (SeedVal.ofWindow inp.currentWindowAtStart),
              Op.gradAccum,
              Op.upload "delta" inp.currentWindowAtStart
                (SeedVal.ofWindow inp.currentWindowAtStart) g1,
              Op.applySlices "delta" (inp.currentWindowAtStart - 1)
                (SeedVal.ofWindow (inp.currentWindowAtStart - 1)),
              Op.upload "state" (inp.currentWindowAtStart + 1)
                (SeedVal.ofWindow (inp.currentWindowAtStart + 1)) g2,
              Op.prune false "state" (inp.currentWindowAtStart - h.max_history),
              Op.prune false "delta" (inp.currentWindowAtStart - h.max_history),
              Op.prune true "state" (inp.currentWindowAtStart - h.max_history),
              Op.prune true "delta" (inp.currentWindowAtStart - h.max_history)] }

/-- The Python exceptions relevant to the round boundary. -/
inductive PyExn
  | keyboardInterrupt
  | attributeError (objType : String) (attr : String)
  | other (msg : String)
deriving DecidableEq

/-- The attributes an `asyncio.Event` object actually has (the ones this code
base calls). -/
def eventAttrNames : List String := ["set", "is_set", "clear", "wait"]

/-- Python attribute lookup on the stop event: `self.stop_event.<attr>`.
Looking up a missing attribute raises `AttributeError`. -/
def eventGetAttr (attr : String) : Except PyExn Unit :=
  if attr ∈ eventAttrNames then Except.ok () else Except.error (PyExn.attributeError "Event" attr)

/-- The attributes of the `sys` module this code base touches. -/
def sysAttrNames : List String := ["exit", "argv"]

/-- Python attribute lookup on the `sys` module. -/
def sysGetAttr (attr : String) : Except PyExn Unit :=
  if attr ∈ sysAttrNames then Except.ok () else Except.error (PyExn.attributeError "module sys" attr)

/-- What the process does after one round's body finishes or raises. -/
inductive LoopOutcome
  | nextRound
  | cleanExit (code : Nat)
  | crash (e : PyExn)
deriving DecidableEq

/-- The observable effect of handling one round boundary. -/
structure BoundaryResult where
  outcome : LoopOutcome
  stopEventSet : Bool
  updateTaskAwaited : Bool
deriving DecidableEq

/-- The validator's round boundary (validator.py lines 429-439).  A normal
completion or a generic exception continues the loop.  On `KeyboardInterrupt`
the handler executes `self.stop_event.setplr.T()`: the attribute lookup
`setplr` on the event raises `AttributeError`, which escapes the handler (a
sibling `except` clause of the same `try` does not catch it), so the loop
aborts without setting the stop event or awaiting the update task.  Were the
lookup to succeed, `await self.update_task` and then `sys.exitplr.T(0)` would
run. -/
def validatorRoundBoundary (raised : Option PyExn) : BoundaryResult :=
  match raised with
  | none => ⟨LoopOutcome.nextRound, false, false⟩
  | some PyExn.keyboardInterrupt =>
    match eventGetAttr "setplr" with
    | Except.error e => ⟨LoopOutcome.crash e, false, false⟩
    | Except.ok _ =>
      match sysGetAttr "exitplr" with
      | Except.error e => ⟨LoopOutcome.crash e, false, true⟩
      | Except.ok _ => ⟨LoopOutcome.cleanExit 0, false, true⟩
  | some _ => ⟨LoopOutcome.nextRound, false, false⟩

/-- The miner's round boundary (miner.py lines 505-516): `KeyboardInterrupt`
runs `self.stop_event.set()`, awaits the update task and calls `sys.exit(0)`;
any other exception is logged and the loop continues. -/
def minerRoundBoundary (raised : Option PyExn) : BoundaryResult :=
  match raised with
  | none => ⟨LoopOutcome.nextRound, false, false⟩
  | some PyExn.keyboardInterrupt =>
    match eventGetAttr "set" with
    | Except.error e => ⟨LoopOutcome.crash e, false, false⟩
    | Except.ok _ =>
      match sysGetAttr "exit" with
      | Except.error e => ⟨LoopOutcome.crash e, true, true⟩
      | Except.ok _ => ⟨LoopOutcome.cleanExit 0, true, true⟩
  | some _ => ⟨LoopOutcome.nextRound, false, false⟩

/- Concrete instances used by counterexamples and witnesses. -/

/-- Concrete hyperparameters for closed instances. -/
def hp0 : Hparams := ⟨100, 1 / 2, 10⟩

/-- A concrete abstract tensor norm: constant `2 - 1e-8`, so the score weight
`norm + 1e-8` is exactly `2`. -/
def norm2 : List Rat → Rat := fun _ => 2 - epsilon

/-- A concrete cosine-similarity collaborator returning `1`. -/
def cossimPos : List Rat → List Rat → Rat := fun _ _ => 1

/-- A concrete cosine-similarity collaborator returning `-1`. -/
def cossimNeg : List Rat → List Rat → Rat := fun _ _ => -1

/-- A concrete block-hash collaborator. -/
def hash0 : Int → String := fun _ => "0xdeadbeef"

/-- The validator's start-up score state: `torch.zeros(256)` everywhere,
`sample_rate = 1.0`, `global_step = 0`. -/
def zeros256 : List Rat := List.replicate 256 0

/-- The validator state right after `Validator.__init__`. -/
def vst0 : ValidatorState := ⟨0, zeros256, zeros256, zeros256, 1⟩

/-- A small all-zero validator score state (three known participants) used for
closed-form arithmetic instances; the round functions are length-generic. -/
def vstS : ValidatorState := ⟨0, [0, 0, 0], [0, 0, 0], [0, 0, 0], 1⟩

/-- A single parameter tensor carrying a gradient. -/
def tensors1 : List TensorEval := [⟨true, [1], [1], [1]⟩]

/-- A concrete round input that reaches the scoring stage: one delta slice
whose hotkey resolves to uid 1, one sampled batch that stays inside the
window. -/
def vinp1 : ValidatorRoundInput := ⟨7, ["b"], 0, ["a", "b"], tensors1, [⟨true, 7⟩]⟩

/-- A concrete round input with no delta slices retrieved. -/
def vinpEmpty : ValidatorRoundInput := ⟨7, [], 0, ["a", "b"], tensors1, [⟨true, 7⟩]⟩

/-- A concrete round input whose chosen slice hotkey is not in the metagraph. -/
def vinpNoUid : ValidatorRoundInput := ⟨7, ["x"], 0, [], [], []⟩

/-- The miner state right after startup (fresh run). -/
def mst0 : MinerState := ⟨0, 1⟩

/-- A concrete miner round whose second processed batch observes a window
advance: the round straddles the boundary mid-training. -/
def minpStraddle : MinerRoundInput := ⟨5, false, true, none, none, [⟨true, 5⟩, ⟨true, 6⟩]⟩

/- Helper lemmas. -/

theorem sum_map_div (l : List Rat) (t : Rat) :
    (l.map (fun s => s / t)).sum = l.sum / t := by
  induction l with
  | nil => simp
  | cons a l ih => simp [ih, add_div]

theorem le_clipNeg (w : Rat) : w ≤ clipNeg w := by
  unfold clipNeg
  split
  next h => exact le_of_lt h
  next h => exact le_refl w

theorem clipNeg_nonneg (w : Rat) : 0 ≤ clipNeg w := by
  unfold clipNeg
  split
  next h => exact le_refl 0
  next h => exact not_lt.mp h

theorem weights_sum_one {scores : List Rat} (h : scores.sum ≠ 0) :
    (scores.map (fun s => s / scores.sum)).sum = 1 := by
  rw [sum_map_div]
  exact div_self h

theorem clipped_sum_pos {scores : List Rat} (h : scores.sum ≠ 0) :
    0 < ((scores.map (fun s => s / scores.sum)).map clipNeg).sum := by
  have h1 := weights_sum_one h
  have h2 : (scores.map (fun s => s / scores.sum)).sum
      ≤ ((scores.map (fun s => s / scores.sum)).map clipNeg).sum := by
    have h3 : ∀ x ∈ scores.map (fun s => s / scores.sum), id x ≤ clipNeg x :=
      fun x _ => le_clipNeg x
    simpa using List.sum_le_sum h3
  linarith

theorem computeWeights_total_zero {scores : List Rat} (h0 : scores.sum = 0) :
    ∀ x ∈ computeWeights scores, x = 0 := by
  intro x hx
  simp only [computeWeights] at hx
  rw [if_pos h0] at hx
  obtain ⟨a, -, rfl⟩ := List.mem_map.mp hx
  rfl

theorem computeWeights_nonneg (scores : List Rat) : ∀ x ∈ computeWeights scores, 0 ≤ x := by
  intro x hx
  simp only [computeWeights] at hx
  by_cases h0 : scores.sum = 0
  · rw [if_pos h0] at hx
    obtain ⟨a, -, rfl⟩ := List.mem_map.mp hx
    exact le_refl 0
  · rw [if_neg h0] at hx
    by_cases hany :
        (scores.map (fun s => s / scores.sum)).any (fun w => decide (w < 0)) = true
    · rw [if_pos hany] at hx
      by_cases hpt : ((scores.map (fun s => s / scores.sum)).map clipNeg).sum = 0
      · rw [if_pos hpt] at hx
        obtain ⟨a, -, rfl⟩ := List.mem_map.mp hx
        exact clipNeg_nonneg a
      · rw [if_neg hpt] at hx
        obtain ⟨a, ha, rfl⟩ := List.mem_map.mp hx
        obtain ⟨b, -, rfl⟩ := List.mem_map.mp ha
        exact div_nonneg (clipNeg_nonneg b) (le_of_lt (clipped_sum_pos h0))
    · rw [if_neg hany] at hx
      by_contra hneg
      exact hany (List.any_eq_true.mpr ⟨x, hx, by simpa using not_le.mp hneg⟩)

theorem computeWeights_sum_one {scores : List Rat} (h0 : scores.sum ≠ 0) :
    (computeWeights scores).sum = 1 := by
  simp only [computeWeights]
  rw [if_neg h0]
  by_cases hany :
      (scores.map (fun s => s / scores.sum)).any (fun w => decide (w < 0)) = true
  · rw [if_pos hany]
    have hpos := clipped_sum_pos h0
    rw [if_neg (ne_of_gt hpos), sum_map_div]
    exact div_self (ne_of_gt hpos)
  · rw [if_neg hany]
    exact weights_sum_one h0

theorem foldl_if_add (f : TensorEval → Rat) (l : List TensorEval) (a : Rat) :
    l.foldl (fun score t => if t.hasGrad then score + f t else score) a
      = a + ((l.filter (fun t => t.hasGrad)).map f).sum := by
  induction l generalizing a with
  | nil => simp
  | cons t l ih =>
    by_cases h : t.hasGrad = true
    · simp [h, ih, add_assoc]
    · simp [h, ih]

theorem getD_set_ne (l : List Rat) (i u : Nat) (v : Rat) (hne : u ≠ i) :
    (l.set i v).getD u 0 = l.getD u 0 := by
  simp [List.getElem?_set_ne (Ne.symm hne)]

theorem evalHotkeys_ne_nil_of_resolve {inp : ValidatorRoundInput} {uid : Nat}
    (hres : resolveEvalUid inp = some uid) : ¬ inp.evalHotkeys.length = 0 := by
  intro h0
  have hnil : inp.evalHotkeys = [] := List.length_eq_zero.mp h0
  rw [resolveEvalUid, hnil] at hres
  simp at hres

theorem vr_stepScores (h : Hparams) (norm : List Rat → Rat)
    (cossim : List Rat → List Rat → Rat) (st : ValidatorState) (inp : ValidatorRoundInput)
    (uid : Nat) (hres : resolveEvalUid inp = some uid) :
    (validatorRound h norm cossim st inp).state.stepScores
      = st.stepScores.set uid (cosineScore norm cossim inp.tensors) := by
  unfold validatorRound
  rw [if_neg (evalHotkeys_ne_nil_of_resolve hres), hres]

theorem vr_scores (h : Hparams) (norm : List Rat → Rat)
    (cossim : List Rat → List Rat → Rat) (st : ValidatorState) (inp : ValidatorRoundInput)
    (uid : Nat) (hres : resolveEvalUid inp = some uid) :
    (validatorRound h norm cossim st inp).state.scores
      = st.scores.set uid
          (emaUpdate h.validator_moving_alpha (cosineScore norm cossim inp.tensors)
            (st.scores.getD uid 0)) := by
  unfold validatorRound
  rw [if_neg (evalHotkeys_ne_nil_of_resolve hres), hres]

theorem vr_weights (h : Hparams) (norm : List Rat → Rat)
    (cossim : List Rat → List Rat → Rat) (st : ValidatorState) (inp : ValidatorRoundInput)
    (uid : Nat) (hres : resolveEvalUid inp = some uid) :
    (validatorRound h norm cossim st inp).state.weights
      = computeWeights (st.scores.set uid
          (emaUpdate h.validator_moving_alpha (cosineScore norm cossim inp.tensors)
            (st.scores.getD uid 0))) := by
  unfold validatorRound
  rw [if_neg (evalHotkeys_ne_nil_of_resolve hres), hres]

theorem le_mergeGlobalStep (g : Nat) (m : Option Nat) : g ≤ mergeGlobalStep g m := by
  cases m with
  | none => exact le_refl g
  | some maxStep => exact Nat.le_max_left g maxStep

theorem replicate_zero_sum (n : Nat) : (List.replicate n (0 : Rat)).sum = 0 := by
  induction n with
  | zero => rfl
  | succ n ih => simp [List.replicate_succ, ih]

theorem replicate_zero_map_div (n : Nat) (t : Rat) :
    (List.replicate n (0 : Rat)).map (fun s => s / t) = List.replicate n 0 := by
  rw [List.map_replicate, zero_div]

theorem replicate_zero_any_neg (n : Nat) :
    (List.replicate n (0 : Rat)).any (fun w => decide (w < 0)) = false := by
  induction n with
  | zero => rfl
  | succ n ih => simp [List.replicate_succ, ih]

theorem replicate_zero_map_clip (n : Nat) :
    (List.replicate n (0 : Rat)).map clipNeg = List.replicate n 0 := by
  rw [List.map_replicate]
  simp [clipNeg]

/- Claim theorems. -/

/-- Claim C1, counterexample: the code zeroes the weight vector only when the
sum of the ema scores is exactly zero (`if total_score == 0.0`), not when it is
merely non-positive.  In a concrete round whose only nonzero ema score is
negative, the resulting score sum is negative, yet the weight vector is not
all-zero (the negative score divided by the negative total yields weight 1). -/
theorem c1_counterexample :
    ¬ ((validatorRound hp0 norm2 cossimNeg vstS vinp1).state.scores.sum ≤ 0 →
       ∀ x ∈ (validatorRound hp0 norm2 cossimNeg vstS vinp1).state.weights, x = 0) := by
  have hres : resolveEvalUid vinp1 = some 1 := by decide
  have hscore : cosineScore norm2 cossimNeg vinp1.tensors = -2 := by
    norm_num [cosineScore, vinp1, tensors1, norm2, cossimNeg, epsilon]
  have hset : vstS.scores.set 1
      (emaUpdate hp0.validator_moving_alpha (cosineScore norm2 cossimNeg vinp1.tensors)
        (vstS.scores.getD 1 0)) = [0, -1, 0] := by
    rw [hscore]
    norm_num [vstS, emaUpdate, hp0]
  have hsc : (validatorRound hp0 norm2 cossimNeg vstS vinp1).state.scores = [0, -1, 0] := by
    rw [vr_scores hp0 norm2 cossimNeg vstS vinp1 1 hres, hset]
  have hwt : (validatorRound hp0 norm2 cossimNeg vstS vinp1).state.weights = [0, 1, 0] := by
    rw [vr_weights hp0 norm2 cossimNeg vstS vinp1 1 hres, hset]
    norm_num [computeWeights, clipNeg]
  intro hcontra
  have h1 := hcontra (by rw [hsc]; norm_num) 1 (by rw [hwt]; norm_num)
  norm_num at h1

/-- Claim C1, amended: after every validator scoring round, every weight is
non-negative and the weights sum to 1, unless the sum of all ema scores is
exactly 0, in which case every weight is 0.  (A strictly negative sum does not
zero the weights: each weight is score / sum, negatives are zeroed, and the
rest renormalized to sum to 1.) -/
theorem c1_amended_weights (h : Hparams) (norm : List Rat → Rat)
    (cossim : List Rat → List Rat → Rat) (st : ValidatorState) (inp : ValidatorRoundInput)
    (uid : Nat) (hres : resolveEvalUid inp = some uid) :
    (∀ x ∈ (validatorRound h norm cossim st inp).state.weights, 0 ≤ x)
    ∧ ((validatorRound h norm cossim st inp).state.scores.sum = 0 →
        ∀ x ∈ (validatorRound h norm cossim st inp).state.weights, x = 0)
    ∧ ((validatorRound h norm cossim st inp).state.scores.sum ≠ 0 →
        (validatorRound h norm cossim st inp).state.weights.sum = 1) := by
  rw [vr_weights h norm cossim st inp uid hres, vr_scores h norm cossim st inp uid hres]
  exact ⟨computeWeights_nonneg _,
    fun h0 => computeWeights_total_zero h0,
    fun h0 => computeWeights_sum_one h0⟩

/-- Witness for the amended C1 at a concrete scoring round. -/
theorem c1_amended_weights_witness :
    (validatorRound hp0 norm2 cossimPos vstS vinp1).state.weights.sum = 1 :=
  (c1_amended_weights hp0 norm2 cossimPos vstS vinp1 1 (by decide)).2.2 (by
    rw [vr_scores hp0 norm2 cossimPos vstS vinp1 1 (by decide)]
    norm_num [vstS, emaUpdate, hp0, cosineScore, vinp1, tensors1, norm2, cossimPos, epsilon])

/-- Claim C2, counterexample: in a concrete validator round for eval window 5
the index selection is invoked with the bare window index 5 as its seed
(`get_indices_for_window(..., seed = window, ...)`), and that value differs
from `seed_for(5)`, the block-hash-derived value `window_to_seed` computes. -/
theorem c2_counterexample :
    Op.getIndices 5 (SeedVal.ofWindow 5)
        ∈ (validatorRound hp0 norm2 cossimPos vst0 vinpNoUid).ops
    ∧ SeedVal.ofWindow 5 ≠ windowToSeed hp0 hash0 5 := by
  decide

/-- Claim C2, amended: every seed consumed by index selection and by slice
upload/apply in a validator or miner round is the bare window index of the
window that operation targets (hence still identical on every participant);
the block-hash-derived seed is computed and stored but never consumed. -/
theorem c2_amended_seeds (h : Hparams) (norm : List Rat → Rat)
    (cossim : List Rat → List Rat → Rat) (st : ValidatorState) (inp : ValidatorRoundInput)
    (h2 : Hparams) (st2 : MinerState) (inp2 : MinerRoundInput) :
    (validatorRound h norm cossim st inp).ops.all seedMatches = true
    ∧ (minerRound h2 st2 inp2).ops.all seedMatches = true := by
  constructor
  · unfold validatorRound
    by_cases hlen : inp.evalHotkeys.length = 0
    · rw [if_pos hlen]
      simp [seedMatches]
    · rw [if_neg hlen]
      cases hres : resolveEvalUid inp with
      | none => simp [seedMatches]
      | some u => simp [seedMatches]
  · unfold minerRound
    by_cases hb : (!inp2.baseline && !inp2.anyValidBuckets) = true
    · rw [if_pos hb]
      simp
    · rw [if_neg hb]
      by_cases hbase : inp2.baseline = true
      · rw [if_pos hbase]
        simp
      · rw [if_neg hbase]
        simp [seedMatches]

/-- Claim C3 (confirmed): `block_to_window` is floor division of the block
height by the window length, and windows agree whenever the floors agree. -/
theorem c3_block_to_window (h : Hparams) (b b1 b2 : Nat)
    (hcong : b1 / h.windowLength = b2 / h.windowLength) :
    (blockToWindow h b : Int) = ⌊(b : Rat) / (h.windowLength : Rat)⌋
    ∧ blockToWindow h b1 = blockToWindow h b2 := by
  constructor
  · rcases Nat.eq_zero_or_pos h.windowLength with hL | hL
    · simp [blockToWindow, hL]
    · have hfl := @Nat.floor_div_eq_div Rat _ _ b h.windowLength
      have hnn : (0 : Rat) ≤ (b : Rat) / (h.windowLength : Rat) :=
        div_nonneg (Nat.cast_nonneg b) (Nat.cast_nonneg _)
      rw [← Int.natCast_floor_eq_floor hnn, hfl]
      rfl
  · exact hcong

/-- Witness for C3 at concrete blocks 601 and 650 with window length 100. -/
theorem c3_block_to_window_witness :
    blockToWindow hp0 601 = blockToWindow hp0 650 :=
  (c3_block_to_window hp0 0 601 650 (by decide)).2

/-- Claim C4 (confirmed): the validator's score is the sum over every
parameter tensor carrying a gradient of
`(norm(theta) + 1e-8) * cosine_similarity(theta - slice, grad)`, the ema score
of the sampled peer is updated to `(1 - alpha) * score + alpha * previous`,
and `step_scores[peer]` is set to the score. -/
theorem c4_score_formula (h : Hparams) (norm : List Rat → Rat)
    (cossim : List Rat → List Rat → Rat) (st : ValidatorState) (inp : ValidatorRoundInput)
    (uid : Nat) (hres : resolveEvalUid inp = some uid) :
    cosineScore norm cossim inp.tensors =
      ((inp.tensors.filter (fun t => t.hasGrad)).map
        (fun t => (norm t.theta + epsilon) *
          cossim (List.zipWith (fun a b => a - b) t.theta t.sliceData) t.grad)).sum
    ∧ (validatorRound h norm cossim st inp).state.stepScores
        = st.stepScores.set uid (cosineScore norm cossim inp.tensors)
    ∧ (validatorRound h norm cossim st inp).state.scores
        = st.scores.set uid
            ((1 - h.validator_moving_alpha) * cosineScore norm cossim inp.tensors
              + h.validator_moving_alpha * st.scores.getD uid 0) := by
  refine ⟨?_, vr_stepScores h norm cossim st inp uid hres, ?_⟩
  · simpa [cosineScore] using
      foldl_if_add
        (fun t => (norm t.theta + epsilon) *
          cossim (List.zipWith (fun a b => a - b) t.theta t.sliceData) t.grad)
        inp.tensors 0
  · rw [vr_scores h norm cossim st inp uid hres]
    rfl

/-- Witness for C4 at a concrete scoring round. -/
theorem c4_score_formula_witness :
    (validatorRound hp0 norm2 cossimPos vst0 vinp1).state.stepScores
      = vst0.stepScores.set 1 (cosineScore norm2 cossimPos vinp1.tensors) :=
  (c4_score_formula hp0 norm2 cossimPos vst0 vinp1 1 (by decide)).2.1

/-- Claim C5 (confirmed): when zero delta slices are retrieved for the eval
window, the round leaves step scores, ema scores, weights and the sample rate
untouched, only increments the global step, and performs none of the scoring
operations (its trace holds only the two downloads). -/
theorem c5_skip_no_deltas (h : Hparams) (norm : List Rat → Rat)
    (cossim : List Rat → List Rat → Rat) (st : ValidatorState) (inp : ValidatorRoundInput)
    (hempty : inp.evalHotkeys = []) :
    (validatorRound h norm cossim st inp).state.stepScores = st.stepScores
    ∧ (validatorRound h norm cossim st inp).state.scores = st.scores
    ∧ (validatorRound h norm cossim st inp).state.weights = st.weights
    ∧ (validatorRound h norm cossim st inp).state.sampleRate = st.sampleRate
    ∧ (validatorRound h norm cossim st inp).state.globalStep = st.globalStep + 1
    ∧ (validatorRound h norm cossim st inp).ops =
        [Op.download "state" (evalWindow inp), Op.download "delta" (evalWindow inp)] := by
  have hlen : inp.evalHotkeys.length = 0 := by rw [hempty]; rfl
  unfold validatorRound
  rw [if_pos hlen]
  exact ⟨rfl, rfl, rfl, rfl, rfl, rfl⟩

/-- Witness for C5 at a concrete empty-delta round. -/
theorem c5_skip_no_deltas_witness :
    (validatorRound hp0 norm2 cossimPos vst0 vinpEmpty).state.scores = vst0.scores
    ∧ (validatorRound hp0 norm2 cossimPos vst0 vinpEmpty).state.weights = vst0.weights := by
  have h5 := c5_skip_no_deltas hp0 norm2 cossimPos vst0 vinpEmpty rfl
  exact ⟨h5.2.1, h5.2.2.1⟩

/-- Claim C6 (confirmed): the sample-rate update keeps the rate inside
`[0.0001, 1]`; a round that straddles a window advance mid-training is marked
exhausted, and a straddling round starting from rate `1.0` ends at `0.95`. -/
theorem c6_sample_rate (h : Hparams) (st : MinerState) (inp : MinerRoundInput) (r : Rat)
    (h1 : 1 / 10000 ≤ r) (h2 : r ≤ 1)
    (hb : inp.baseline = false) (hv : inp.anyValidBuckets = true)
    (hrate : st.sampleRate = 1)
    (hbatch : inp.batches =
      [⟨true, inp.currentWindowAtStart⟩, ⟨true, inp.currentWindowAtStart + 1⟩]) :
    (∀ e, 1 / 10000 ≤ updateSampleRate e r ∧ updateSampleRate e r ≤ 1)
    ∧ (minerAccumulate inp.currentWindowAtStart false inp.batches).exhausted = true
    ∧ (minerRound h st inp).state.sampleRate = 19 / 20 := by
  have hd1 : decide (inp.currentWindowAtStart ≠ inp.currentWindowAtStart) = false := by
    simp
  have hd2 : decide (inp.currentWindowAtStart ≠ inp.currentWindowAtStart + 1) = true := by
    simp only [decide_eq_true_eq]
    omega
  have hacc : (minerAccumulate inp.currentWindowAtStart false inp.batches).exhausted = true := by
    rw [hbatch]
    simp [minerAccumulate, minerBatchStep, hd1, hd2]
  refine ⟨?_, hacc, ?_⟩
  · intro e
    cases e with
    | false =>
      unfold updateSampleRate
      constructor
      · simp only [Bool.false_eq_true, if_false]
        refine le_min (by norm_num) ?_
        nlinarith
      · simp only [Bool.false_eq_true, if_false]
        exact min_le_left 1 _
    | true =>
      unfold updateSampleRate
      constructor
      · simp only [if_true]
        exact le_max_left _ _
      · simp only [if_true]
        refine max_le (by norm_num) ?_
        nlinarith
  · have hsr : (minerRound h st inp).state.sampleRate
        = updateSampleRate
            (minerAccumulate inp.currentWindowAtStart false inp.batches).exhausted
            st.sampleRate := by
      unfold minerRound
      rw [hb, hv]
      simp
    rw [hsr, hacc, hrate]
    unfold updateSampleRate
    rw [if_pos rfl, max_eq_right (by norm_num)]
    norm_num

/-- Witness for C6 at a concrete straddling miner round. -/
theorem c6_sample_rate_witness :
    (minerRound hp0 mst0 minpStraddle).state.sampleRate = 19 / 20 :=
  (c6_sample_rate hp0 mst0 minpStraddle 1 (by norm_num) (by norm_num) rfl rfl rfl
    (by decide)).2.2

/-- Claim C7 (code bug): a generic exception at either role's round boundary
continues the loop, and the miner's `KeyboardInterrupt` handler shuts down
cleanly; but the validator's handler evaluates `self.stop_event.setplr`, an
attribute that does not exist, so it raises `AttributeError` and the process
crashes without setting the stop event or awaiting the update task. -/
theorem c7_interrupt_behavior :
    validatorRoundBoundary (some PyExn.keyboardInterrupt)
      = ⟨LoopOutcome.crash (PyExn.attributeError "Event" "setplr"), false, false⟩
    ∧ minerRoundBoundary (some PyExn.keyboardInterrupt)
      = ⟨LoopOutcome.cleanExit 0, true, true⟩
    ∧ validatorRoundBoundary (some (PyExn.other "ValueError"))
      = ⟨LoopOutcome.nextRound, false, false⟩
    ∧ minerRoundBoundary (some (PyExn.other "ValueError"))
      = ⟨LoopOutcome.nextRound, false, false⟩ := by
  decide

/-- Claim C8 (confirmed): with ema scores `[0.6, 0.3, -0.1]` (all other
entries zero) the weight recomputation divides by the sum 0.8, zeroes the
negative entry and renormalizes, producing `[0.6/0.9, 0.3/0.9, 0]`, i.e.
`[2/3, 1/3, 0]`. -/
theorem c8_weight_scenario :
    computeWeights (([6/10, 3/10, -1/10] : List Rat) ++ List.replicate 253 0)
      = ([2/3, 1/3, 0] : List Rat) ++ List.replicate 253 0 := by
  have hsum : (([6/10, 3/10, -1/10] : List Rat) ++ List.replicate 253 0).sum = 4/5 := by
    rw [List.sum_append, replicate_zero_sum]
    norm_num
  have hmap : (([6/10, 3/10, -1/10] : List Rat) ++ List.replicate 253 0).map
      (fun s => s / (4/5)) = ([3/4, 3/8, -1/8] : List Rat) ++ List.replicate 253 0 := by
    rw [List.map_append, replicate_zero_map_div]
    norm_num
  have hany : ((([3/4, 3/8, -1/8] : List Rat) ++ List.replicate 253 0).any
      (fun w => decide (w < 0))) = true := by
    rw [List.any_append, replicate_zero_any_neg]
    norm_num
  have hclip : (([3/4, 3/8, -1/8] : List Rat) ++ List.replicate 253 0).map clipNeg
      = ([3/4, 3/8, 0] : List Rat) ++ List.replicate 253 0 := by
    rw [List.map_append, replicate_zero_map_clip]
    norm_num [clipNeg]
  have hpt : (([3/4, 3/8, 0] : List Rat) ++ List.replicate 253 0).sum = 9/8 := by
    rw [List.sum_append, replicate_zero_sum]
    norm_num
  have hfin : (([3/4, 3/8, 0] : List Rat) ++ List.replicate 253 0).map
      (fun w => w / (9/8)) = ([2/3, 1/3, 0] : List Rat) ++ List.replicate 253 0 := by
    rw [List.map_append, replicate_zero_map_div]
    norm_num
  simp only [computeWeights]
  rw [hsum, if_neg (by norm_num : ¬ (4/5 : Rat) = 0), hmap, hany, if_pos rfl, hclip, hpt,
    if_neg (by norm_num : ¬ (9/8 : Rat) = 0), hfin]

/-- Claim C9 (confirmed): a validator round that reaches scoring writes the
step-score and ema-score vectors only at the resolved uid of the randomly
chosen delta slice - every other uid's entries are unchanged - while the
weight vector is recomputed from the full updated ema-score vector. -/
theorem c9_single_uid_frame (h : Hparams) (norm : List Rat → Rat)
    (cossim : List Rat → List Rat → Rat) (st : ValidatorState) (inp : ValidatorRoundInput)
    (uid : Nat) (hres : resolveEvalUid inp = some uid) :
    (∀ u, u ≠ uid →
      (validatorRound h norm cossim st inp).state.scores.getD u 0 = st.scores.getD u 0
      ∧ (validatorRound h norm cossim st inp).state.stepScores.getD u 0
          = st.stepScores.getD u 0)
    ∧ (validatorRound h norm cossim st inp).state.weights
        = computeWeights (validatorRound h norm cossim st inp).state.scores := by
  refine ⟨fun u hu => ⟨?_, ?_⟩, ?_⟩
  · rw [vr_scores h norm cossim st inp uid hres]
    exact getD_set_ne _ _ _ _ hu
  · rw [vr_stepScores h norm cossim st inp uid hres]
    exact getD_set_ne _ _ _ _ hu
  · rw [vr_weights h norm cossim st inp uid hres, vr_scores h norm cossim st inp uid hres]

/-- Witness for C9 at a concrete scoring round (uid 1 scored, uid 0 framed). -/
theorem c9_single_uid_frame_witness :
    (validatorRound hp0 norm2 cossimPos vst0 vinp1).state.scores.getD 0 0
        = vst0.scores.getD 0 0
    ∧ (validatorRound hp0 norm2 cossimPos vst0 vinp1).state.weights
        = computeWeights (validatorRound hp0 norm2 cossimPos vst0 vinp1).state.scores := by
  have h9 := c9_single_uid_frame hp0 norm2 cossimPos vst0 vinp1 1 (by decide)
  exact ⟨(h9.1 0 (by decide)).1, h9.2⟩

/-- Claim C10 (confirmed): the miner's global step is monotone: every round
increments it by at least one (the `+= 1` plus only `max`-merges of recovered
steps), and the sync-state prologue never decreases it. -/
theorem c10_global_step_monotone (h : Hparams) (st : MinerState) (inp : MinerRoundInput)
    (m : Option Nat) :
    st.globalStep + 1 ≤ (minerRound h st inp).state.globalStep
    ∧ st.globalStep ≤ (minerSyncStateStep st m).globalStep := by
  constructor
  · unfold minerRound
    by_cases hb : (!inp.baseline && !inp.anyValidBuckets) = true
    · rw [if_pos hb]
    · rw [if_neg hb]
      by_cases hbase : inp.baseline = true
      · rw [if_pos hbase]
      · rw [if_neg hbase]
        show st.globalStep + 1 ≤
          mergeGlobalStep (mergeGlobalStep (st.globalStep + 1) inp.stateApplyMaxStep)
            inp.deltaApplyMaxStep
        exact le_trans (le_mergeGlobalStep _ _) (le_mergeGlobalStep _ _)
  · unfold minerSyncStateStep
    exact le_mergeGlobalStep st.globalStep m

end Templar
